import Mathlib

/-!
Verification of the containerfs tiny-file blob store (Go package `storage`,
file `blob_store.go`) and the follower-side blob repair engine
(`datanode/blob_repair.go`) against their natural-language specification.

The Go code is shallowly embedded: chunk data files become `List Nat` of
bytes, the on-disk index file becomes a `List Object` in append order, and
each store operation becomes a pure function returning the updated store
together with an optional error.  Machine-integer truncations performed by
the Go code (`uint32(...)` casts) are kept as explicit `% 2^32`.
All executions are modelled sequentially: `compactLock.TryLock` succeeds
exactly when no compaction is marked in progress, and the shared
(reader-side) acquisitions of `commitLock` always succeed because no
exclusive holder exists in a sequential run.
-/

/-- Error values surfaced by the storage engine.  The Go code keeps these as
distinct package-level `error` values (`ErrorFileNotFound`,
`ErrorObjNotFound`, ...); here they are constructors of one inductive. -/
inductive StoreErr where
  | ErrorFileNotFound
  | ErrorObjNotFound
  | ErrorParamMismatch
  | ErrObjectSmaller
  | ErrorAgain
  | ErrorNoAvaliFile
  | ErrorNoUnAvaliFile
deriving DecidableEq, Repr

/-- Constant from `blob_store.go`: the store holds chunks `1..=10`. -/
def TinyChunkCount : Nat := 10

/-- Constant from `blob_store.go`: default compaction threshold (percent). -/
def CompactThreshold : Nat := 40

/-- Modelled from the spec: the sentinel size marking a deleted object
(`TOMBSTONE` = `u32::MAX`); the Go constant `TombstoneFileSize` is declared
in the chunk implementation, which is not under `src/`. -/
def TombstoneFileSize : Nat := 2 ^ 32 - 1

/-- Modelled from the spec: one index record is 20 bytes on disk
(`[oid:u64 BE][offset:u32][size:u32][crc:u32]`); the Go constant
`ObjectHeaderSize` is declared outside the provided sources. -/
def ObjectHeaderSize : Nat := 20

/-- One index record / repair-stream header: object id, byte offset in the
chunk data file, payload size (or the tombstone sentinel), and payload CRC. -/
structure Object where
  oid : Nat
  offset : Nat
  size : Nat
  crc : Nat
deriving DecidableEq, Repr

/-- One chunk: an append-only data file paired with an append-only index
file, byte counters for the compaction trigger, the last written object id,
the repair snapshot of it, and the compaction-lock state. -/
structure Chunk where
  file : List Nat
  idxFile : List Object
  fileBytes : Nat
  deleteBytes : Nat
  lastOid : Nat
  syncLastOid : Nat
  compactLocked : Bool
deriving DecidableEq, Repr

/-- Last index record written for `oid`, if any (the index file is replayed
in append order and later records overwrite earlier ones). -/
def findLast (idx : List Object) (oid : Nat) : Option Object :=
  idx.reverse.find? (fun o => o.oid == oid)

/-- Modelled from the spec: the in-memory index-tree lookup (`tree.get`,
implemented outside the provided sources).  Returns the current record for
`oid`, or `none` when the oid is absent or its current record is a
tombstone. -/
def Chunk.treeGet (c : Chunk) (oid : Nat) : Option Object :=
  match findLast c.idxFile oid with
  | some r => if r.size = TombstoneFileSize then none else some r
  | none => none

/-- Modelled from the spec: `tree.set` (implemented outside the provided
sources) appends a new record to the index file and updates the byte
counters: a pre-existing live record's size is added to `deleteBytes`, and
a live new size is added to `fileBytes`. -/
def Chunk.treeSet (c : Chunk) (oid offset size crc : Nat) : Chunk :=
  let shadow := match findLast c.idxFile oid with
    | some r => if r.size = TombstoneFileSize then 0 else r.size
    | none => 0
  { c with
      idxFile := c.idxFile ++ [⟨oid, offset, size, crc⟩]
      fileBytes := if size = TombstoneFileSize then c.fileBytes else c.fileBytes + size
      deleteBytes := c.deleteBytes + shadow }

/-- Modelled from the spec: `tree.delete` (implemented outside the provided
sources) marks an existing entry as a tombstone, equivalent to
`set(oid, 0, TOMBSTONE, 0)`, and errors when the oid was never written. -/
def Chunk.treeDelete (c : Chunk) (oid : Nat) : Except StoreErr Chunk :=
  match findLast c.idxFile oid with
  | none => .error .ErrorObjNotFound
  | some _ => .ok (c.treeSet oid 0 TombstoneFileSize 0)

/-- Watermark record returned by `GetWatermark` / `GetAllWatermark`:
`Size` carries the chunk's `lastOid`. -/
structure FileInfo where
  fileId : Nat
  size : Nat
deriving DecidableEq, Repr

/-- The blob store: chunk table keyed by chunk id, the two chunk-id queues,
and the configured store size. -/
structure BlobStore where
  chunks : List (Nat × Chunk)
  availChunkCh : List Nat
  unavailChunkCh : List Nat
  storeSize : Nat
deriving DecidableEq, Repr

/-- Replace the entry for `chunkId` in the chunk table (the Go code mutates
the chunk in place through its pointer). -/
def BlobStore.updateChunk (s : BlobStore) (chunkId : Nat) (c : Chunk) : BlobStore :=
  { s with chunks := s.chunks.map (fun p => if p.1 = chunkId then (chunkId, c) else p) }

/-- Embeds `BlobStore.WriteDeleteDentry` (src/unnamed/part_000:110-133):
append one tombstone index record whose offset is the current data-file
size truncated to `u32` (`uint32(fi.Size())`), touch no data-file bytes,
and raise `lastOid` when the new oid is larger. -/
def BlobStore.WriteDeleteDentry (s : BlobStore) (objectId chunkId crc : Nat) :
    BlobStore × Option StoreErr :=
  match s.chunks.lookup chunkId with
  | none => (s, some .ErrorFileNotFound)
  | some c =>
    if c.compactLocked then (s, some .ErrorAgain)
    else
      let o : Object := ⟨objectId, c.file.length % 2 ^ 32, TombstoneFileSize, crc⟩
      let c' := { c with idxFile := c.idxFile ++ [o] }
      let c'' := if c'.lastOid < objectId then { c' with lastOid := objectId } else c'
      (s.updateChunk chunkId c'', none)

/-- Embeds `BlobStore.Write` (src/unnamed/part_000:135-172): reject a
compacting chunk with `Again` and a stale oid (`objectId < lastOid`) with
`ObjectSmaller`; otherwise append `data[:size]` at the current end of the
data file and index it via `tree.set` with the offset and size truncated to
`u32` (`uint32(newOffset)`, `uint32(size)`), then raise `lastOid` when the
new oid is larger. -/
def BlobStore.Write (s : BlobStore) (fileId objectId size : Nat) (data : List Nat)
    (crc : Nat) : BlobStore × Option StoreErr :=
  match s.chunks.lookup fileId with
  | none => (s, some .ErrorFileNotFound)
  | some c =>
    if c.compactLocked then (s, some .ErrorAgain)
    else if objectId < c.lastOid then (s, some .ErrObjectSmaller)
    else
      let newOffset := c.file.length
      let c1 := { c with file := c.file ++ data.take size }
      let c2 := c1.treeSet objectId (newOffset % 2 ^ 32) (size % 2 ^ 32) crc
      let c3 := if c2.lastOid < objectId then { c2 with lastOid := objectId } else c2
      (s.updateChunk fileId c3, none)

/-- The chunk produced by the success path of `BlobStore.Write`: data
appended, index record appended via `tree.set`, watermark bumped.  Named
separately so that lemmas can speak about the written chunk. -/
def writeChunk (c : Chunk) (oid size : Nat) (data : List Nat) (crc : Nat) : Chunk :=
  let c1 := { c with file := c.file ++ data.take size }
  let c2 := c1.treeSet oid (c.file.length % 2 ^ 32) (size % 2 ^ 32) crc
  if c2.lastOid < oid then { c2 with lastOid := oid } else c2

/-- Embeds `BlobStore.Read` (src/unnamed/part_000:174-210): the `offset`
argument carries the object id; a read above the watermark returns
`ErrorFileNotFound`, an index miss returns `ErrorObjNotFound`, a size or
bounds mismatch returns `ErrorParamMismatch`, and a successful read yields
the indexed payload bytes together with the recorded CRC.  The result is
`(crc, error, bytes read into nbuf)`. -/
def BlobStore.Read (s : BlobStore) (fileId offset size : Nat) :
    Nat × Option StoreErr × List Nat :=
  match s.chunks.lookup fileId with
  | none => (0, some .ErrorFileNotFound, [])
  | some c =>
    let objectId := offset
    if c.lastOid < objectId then (0, some .ErrorFileNotFound, [])
    else
      let fiSize := c.file.length
      match c.treeGet objectId with
      | none => (0, some .ErrorObjNotFound, [])
      | some o =>
        if o.size ≠ size ∨ o.offset + size > fiSize then (0, some .ErrorParamMismatch, [])
        else (o.crc, none, (c.file.drop o.offset).take size)

/-- Embeds `BlobStore.MarkDelete` (src/unnamed/part_000:307-317): the
`offset` argument carries the object id; the `size` argument is unused by
the Go code. -/
def BlobStore.MarkDelete (s : BlobStore) (fileId offset size : Nat) :
    BlobStore × Option StoreErr :=
  match s.chunks.lookup fileId with
  | none => (s, some .ErrorFileNotFound)
  | some c =>
    match c.treeDelete offset with
    | .error e => (s, some e)
    | .ok c' => (s.updateChunk fileId c', none)

/-- Embeds `BlobStore.GetWatermark` (src/unnamed/part_000:237-246). -/
def BlobStore.GetWatermark (s : BlobStore) (fileId : Nat) : Except StoreErr FileInfo :=
  match s.chunks.lookup fileId with
  | none => .error .ErrorFileNotFound
  | some c => .ok ⟨fileId, c.lastOid⟩

/-- Embeds `BlobStore.GetChunkForWrite` (src/unnamed/part_000:258-270).
The Go loop runs `len(availChunkCh)` times; sequentially a non-empty queue
makes the first receive succeed, and an empty queue skips the loop body
entirely so the function falls through to `return` with the zero values
`(0, nil)`. -/
def BlobStore.GetChunkForWrite (s : BlobStore) : BlobStore × Int × Option StoreErr :=
  match s.availChunkCh with
  | [] => (s, 0, none)
  | chunkId :: rest => ({ s with availChunkCh := rest }, (chunkId : Int), none)

/-- Embeds the `WalkIndexFile` callback of `GetDelObjects`
(src/unnamed/part_000:370-378): walk records in append order, stop at the
first oid above `syncLastOid` (the callback returns an error there, which
terminates the walk), and collect the oid of every tombstone record seen.
The walk primitive itself is modelled from the spec (`walk(f)` replays the
on-disk index file in append order; it is implemented outside the provided
sources). -/
def walkCollectDel (records : List Object) (syncLastOid : Nat) : List Nat :=
  match records with
  | [] => []
  | r :: rest =>
    if r.oid > syncLastOid then []
    else if r.size = TombstoneFileSize then r.oid :: walkCollectDel rest syncLastOid
    else walkCollectDel rest syncLastOid

/-- Embeds `BlobStore.GetDelObjects` (src/unnamed/part_000:359-382):
snapshot `syncLastOid := lastOid`, then walk the on-disk index file
collecting tombstone oids, stopping at the first oid above the snapshot. -/
def BlobStore.GetDelObjects (s : BlobStore) (fileId : Nat) : List Nat × BlobStore :=
  match s.chunks.lookup fileId with
  | none => ([], s)
  | some c =>
    let syncLastOid := c.lastOid
    let c' := { c with syncLastOid := syncLastOid }
    (walkCollectDel c.idxFile syncLastOid, s.updateChunk fileId c')

/-- Embeds `BlobStore.IsReadyToCompact` (src/unnamed/part_000:394-412):
a negative threshold defaults to `CompactThreshold`; the chunk is ready
when `fileBytes ≥ (storeSize/TinyChunkCount)*40/100` (Go integer
arithmetic) and `deleteBytes ≥ fileBytes*thresh/100`.  The Go function
returns `deletePercent` as a `float64` quotient; it is idealised here as
the exact rational `deleteBytes / fileBytes`.  The Go code dereferences the
chunk unconditionally (its comment reads `make sure chunkID is valid`), so
the model returns `none` for a missing chunk. -/
def BlobStore.IsReadyToCompact (s : BlobStore) (chunkID : Nat) (thresh : Int) :
    Option (Bool × ℚ) :=
  let thresh' : Nat := (if thresh < 0 then (CompactThreshold : Int) else thresh).toNat
  (s.chunks.lookup chunkID).map (fun c =>
    let deletePercent : ℚ := (c.deleteBytes : ℚ) / (c.fileBytes : ℚ)
    let maxChunkSize := s.storeSize / TinyChunkCount
    if c.fileBytes < maxChunkSize * CompactThreshold / 100 then (false, deletePercent)
    else if c.deleteBytes < c.fileBytes * thresh' / 100 then (false, deletePercent)
    else (true, deletePercent))

/-- One reflected-bit step of IEEE CRC32 (polynomial `0xEDB88320`). -/
def crc32Step (c : Nat) : Nat :=
  if c % 2 = 1 then (c / 2) ^^^ 0xEDB88320 else c / 2

/-- Fold one byte into a running IEEE CRC32 state: xor the byte in, then
apply eight reflected-bit steps. -/
def crc32Byte (c b : Nat) : Nat :=
  crc32Step (crc32Step (crc32Step (crc32Step
    (crc32Step (crc32Step (crc32Step (crc32Step (c ^^^ b % 256))))))))

/-- IEEE CRC32 of a byte sequence (Go `hash/crc32.ChecksumIEEE`): initial
state `0xFFFFFFFF`, final xor `0xFFFFFFFF`. -/
def crc32 (data : List Nat) : Nat :=
  (data.foldl crc32Byte 0xFFFFFFFF) ^^^ 0xFFFFFFFF

/-- Big-endian value of a byte list. -/
def beNat (bytes : List Nat) : Nat :=
  bytes.foldl (fun a b => a * 256 + b % 256) 0

/-- Modelled from the spec: `Object.Unmarshal` (implemented outside the
provided sources) decodes a 20-byte header
`[oid:u64 BE][offset:u32][size:u32][crc:u32]`. -/
def Object.Unmarshal (bs : List Nat) : Object :=
  ⟨beNat (bs.take 8), beNat ((bs.drop 8).take 4),
   beNat ((bs.drop 12).take 4), beNat ((bs.drop 16).take 4)⟩

/-- Embeds the decode loop of `applyRepairBlobObjects`
(src/datanode/blob_repair.go:239-287) as one step function over the running
byte offset; `fuel` only bounds the recursion and `applyRepairBlobObjects`
supplies enough of it for the loop to run to one of its Go exits.  The
branches follow the Go code exactly, including the two `return
errors.Annotatef(err, ...)` statements that are reached with `err == nil`
(the missing-body check and the CRC-mismatch check): `juju/errors`
`Annotatef` returns `nil` when the annotated error is `nil`, so both exits
stop the loop with no error reported. -/
def applyLoop (s : BlobStore) (blobfileId : Nat) (data : List Nat) (endObjectId : Nat)
    (offset applyObjectId fuel : Nat) : BlobStore × Option StoreErr :=
  match fuel with
  | 0 => (s, none)
  | fuel + 1 =>
    if offset + ObjectHeaderSize > data.length then (s, none)
    else if applyObjectId ≥ endObjectId then (s, none)
    else
      let o := Object.Unmarshal ((data.drop offset).take ObjectHeaderSize)
      let offset1 := offset + ObjectHeaderSize
      let (s1, errW) :=
        if o.size = TombstoneFileSize
        then s.WriteDeleteDentry o.oid blobfileId o.crc
        else (s, none)
      match errW with
      | some e => (s1, some e)
      | none =>
        if offset1 + o.size > data.length then (s1, none)
        else
          let ndata := (data.drop offset1).take o.size
          let offset2 := offset1 + o.size
          let ncrc := crc32 ndata
          if ncrc ≠ o.crc then (s1, none)
          else
            match s1.Write blobfileId o.oid o.size ndata o.crc with
            | (s2, some e) => (s2, some e)
            | (s2, none) => applyLoop s2 blobfileId data endObjectId offset2 o.oid fuel

/-- Embeds `dataPartition.applyRepairBlobObjects`
(src/datanode/blob_repair.go:239-287): start at offset 0 with
`applyObjectId = 0`.  Each loop iteration consumes at least
`ObjectHeaderSize > 0` bytes, so `data.length + 1` units of fuel always
reach a Go exit. -/
def applyRepairBlobObjects (s : BlobStore) (blobfileId : Nat) (data : List Nat)
    (endObjectId : Nat) : BlobStore × Option StoreErr :=
  applyLoop s blobfileId data endObjectId 0 0 (data.length + 1)

/-- Outcome of one iteration of the receive loop in
`streamRepairBlobObjects`. -/
inductive StreamStep where
  | watermarkError (e : StoreErr)
  | breakDone
  | protocolError (newLastOid expected : Nat)
  | applyFailed (e : StoreErr)
  | applied (s : BlobStore)
deriving DecidableEq, Repr

/-- Embeds one iteration of the receive loop of
`dataPartition.streamRepairBlobObjects` (src/datanode/blob_repair.go:201-234)
on an already-received packet: re-read the local watermark; stop when it
has caught up with the remote size; otherwise take the packet's offset as
`newLastOid` and abort with a protocol error when it exceeds
`remoteBlobFileInfo.FileId` (the Go code compares against the chunk id
field); otherwise hand the packet data to `applyRepairBlobObjects` with
`newLastOid` as the end object id. -/
def streamRepairIteration (s : BlobStore) (remoteBlobFileInfo : FileInfo)
    (packetOffset : Nat) (packetData : List Nat) : StreamStep :=
  match s.GetWatermark remoteBlobFileInfo.fileId with
  | .error e => .watermarkError e
  | .ok localBlobFileInfo =>
    if localBlobFileInfo.size ≥ remoteBlobFileInfo.size then .breakDone
    else
      let newLastOid := packetOffset
      if newLastOid > remoteBlobFileInfo.fileId then
        .protocolError newLastOid remoteBlobFileInfo.fileId
      else
        match applyRepairBlobObjects s remoteBlobFileInfo.fileId packetData newLastOid with
        | (_, some e) => .applyFailed e
        | (s', none) => .applied s'

/-- A freshly created chunk: empty data file, empty index, watermark 0. -/
def chunk0 : Chunk := ⟨[], [], 0, 0, 0, 0, false⟩

/-- A store holding the single fresh chunk `1`, with both chunk-id queues
empty. -/
def store0 : BlobStore := ⟨[(1, chunk0)], [], [], 1000⟩

/-- A store whose available-chunk queue holds chunk id `3`. -/
def storeAvail3 : BlobStore := ⟨[(1, chunk0)], [3], [], 1000⟩

/-- A chunk whose data file holds exactly `2^32` bytes, so that its length
does not fit in a `u32`. -/
def bigChunk : Chunk := ⟨List.replicate (2 ^ 32) 0, [], 0, 0, 0, 0, false⟩

/-- A store holding `bigChunk` as chunk `1`. -/
def bigStore : BlobStore := ⟨[(1, bigChunk)], [], [], 1000⟩

/-- Store reached from `store0` by `Write(chunk 1, oid 1, [7])`. -/
def store7a : BlobStore := (store0.Write 1 1 1 [7] 3).1

/-- Store reached from `store7a` by `MarkDelete(chunk 1, oid 1)`. -/
def store7b : BlobStore := (store7a.MarkDelete 1 1 0).1

/-- Store reached from `store7b` by rewriting oid 1: `Write(chunk 1, oid 1,
[8])` (accepted, because only `oid < lastOid` is rejected). -/
def store7c : BlobStore := (store7b.Write 1 1 1 [8] 4).1

/-- A repair packet: a tombstone header for oid 2 followed by a complete,
CRC-valid `(header, payload)` pair for oid 3 with payload byte `5`
(`crc32 [5] = 0xA2681B02`, big-endian bytes `[162, 104, 27, 2]`). -/
def data41 : List Nat :=
  [0, 0, 0, 0, 0, 0, 0, 2, 0, 0, 0, 0, 255, 255, 255, 255, 0, 0, 0, 9] ++
  [0, 0, 0, 0, 0, 0, 0, 3, 0, 0, 0, 0, 0, 0, 0, 1, 162, 104, 27, 2] ++ [5]

/-- A repair packet holding one non-tombstone `(header, payload)` pair for
oid 4 whose header CRC field is 0, which differs from `crc32 [5]`. -/
def data22 : List Nat :=
  [0, 0, 0, 0, 0, 0, 0, 4, 0, 0, 0, 0, 0, 0, 0, 1, 0, 0, 0, 0] ++ [5]

/-- A data payload of `2^32` bytes, longer than a `u32` can count. -/
def hugeData : List Nat := List.replicate (2 ^ 32) 0

/-- A chunk whose counters satisfy the compaction trigger for a store of
size 1000: `fileBytes = 100`, `deleteBytes = 50`. -/
def chunkC8 : Chunk := ⟨[], [], 100, 50, 0, 0, false⟩

/-- A store holding `chunkC8` as chunk 1. -/
def storeC8 : BlobStore := ⟨[(1, chunkC8)], [], [], 1000⟩

/-- The chunk of `store7a`: one live record for oid 1. -/
def chunk7a : Chunk := ⟨[7], [⟨1, 0, 1, 3⟩], 1, 0, 1, 0, false⟩

/-- The chunk of `store7c`: oid 1 written, tombstoned, then rewritten, so
its last persisted record is live. -/
def chunk7c : Chunk :=
  ⟨[7, 8], [⟨1, 0, 1, 3⟩, ⟨1, 0, TombstoneFileSize, 0⟩, ⟨1, 1, 1, 4⟩], 2, 1, 1, 0, false⟩

theorem lookup_map_update (l : List (Nat × Chunk)) (id : Nat) (c c' : Chunk)
    (h : l.lookup id = some c) :
    (l.map (fun p => if p.1 = id then (id, c') else p)).lookup id = some c' := by
  induction l with
  | nil => simp [List.lookup] at h
  | cons p t ih =>
    obtain ⟨k, v⟩ := p
    rw [List.map_cons]
    by_cases hp : k = id
    · subst hp
      have hf : (if (k, v).1 = k then (k, c') else (k, v)) = (k, c') := if_pos rfl
      rw [hf]
      simp [List.lookup]
    · have hb : (id == k) = false := beq_eq_false_iff_ne.mpr (Ne.symm hp)
      have hf : (if (k, v).1 = id then (id, c') else (k, v)) = (k, v) := if_neg hp
      rw [hf]
      simp only [List.lookup, hb] at h ⊢
      exact ih h

theorem lookup_updateChunk (s : BlobStore) (id : Nat) (c c' : Chunk)
    (h : s.chunks.lookup id = some c) :
    (s.updateChunk id c').chunks.lookup id = some c' :=
  lookup_map_update s.chunks id c c' h

theorem findLast_append_single (l : List Object) (o : Object) (oid : Nat) :
    findLast (l ++ [o]) oid = if o.oid = oid then some o else findLast l oid := by
  unfold findLast
  rw [List.reverse_append]
  by_cases h : o.oid = oid
  · simp [List.find?, h]
  · have hb : (o.oid == oid) = false := beq_eq_false_iff_ne.mpr h
    simp [List.find?, h, hb]

theorem walkCollectDel_eq (l : List Object) (n : Nat) :
    walkCollectDel l n =
      (l.takeWhile (fun r => r.oid ≤ n)).filterMap
        (fun r => if r.size = TombstoneFileSize then some r.oid else none) := by
  induction l with
  | nil => simp [walkCollectDel]
  | cons r t ih =>
    by_cases h : r.oid > n
    · have : ¬ r.oid ≤ n := by omega
      simp [walkCollectDel, h, List.takeWhile_cons, this]
    · have hle : r.oid ≤ n := by omega
      by_cases ht : r.size = TombstoneFileSize <;>
        simp [walkCollectDel, h, List.takeWhile_cons, hle, ht, ih]

/-- Claim C2, counterexample: after a successful `Write` of oid 1 to chunk 1
(`lastOid = 1`), a second `Write` with the same oid 1 does not return
`ObjectSmaller` — it succeeds, because the code rejects only
`objectId < lastOid`. -/
theorem C2_counterexample :
    (store0.Write 1 1 1 [7] 3).2 = none ∧
    ((store0.Write 1 1 1 [7] 3).1.chunks.lookup 1).map Chunk.lastOid = some 1 ∧
    ((store0.Write 1 1 1 [7] 3).1.Write 1 1 1 [7] 3).2 = none ∧
    ((store0.Write 1 1 1 [7] 3).1.Write 1 1 1 [7] 3).2 ≠ some StoreErr.ErrObjectSmaller := by
  decide

/-- Claim C3, counterexample: chunk 1 of `store0` has `lastOid = 0`, and
`Read` of oid 5 fails with `ErrorFileNotFound` — not with the
`ErrorObjNotFound` kind that an index-tree miss produces. -/
theorem C3_counterexample :
    (store0.chunks.lookup 1).map Chunk.lastOid = some 0 ∧
    store0.Read 1 5 3 = (0, some StoreErr.ErrorFileNotFound, []) ∧
    some StoreErr.ErrorFileNotFound ≠ some StoreErr.ErrorObjNotFound := by
  decide

/-- Claim C4: `streamRepairBlobObjects` is specified to abort only when the
packet offset exceeds the remote watermark (`FileInfo.Size`), but the code
compares against `FileInfo.FileId`: with remote watermark 100 on chunk 1, a
valid packet carrying last oid 50 (≤ 100) is rejected with the protocol
error because 50 > 1. -/
theorem C4_streamRepair_compares_fileId :
    streamRepairIteration store0 ⟨1, 100⟩ 50 [] = StreamStep.protocolError 50 1 ∧
    (50 : Nat) ≤ 100 := by
  decide

/-- Claim C5: on a tombstone header `applyRepairBlobObjects` is specified to
consume only the header and continue with the next pair, but after
`writeDeleteDentry` the code falls through into the missing-body check with
`o.Size` equal to the sentinel, and returns (`errors.Annotatef(nil, ...) =
nil`): on a packet holding a tombstone for oid 2 followed by a complete,
CRC-valid pair for oid 3, only the delete dentry for oid 2 is applied, the
function reports no error, and oid 3 is never written. -/
theorem C5_tombstone_stops_decoding :
    applyRepairBlobObjects store0 1 data41 3 =
      (⟨[(1, ⟨[], [⟨2, 0, TombstoneFileSize, 9⟩], 0, 0, 2, 0, false⟩)], [], [], 1000⟩, none) ∧
    crc32 [5] = beNat [162, 104, 27, 2] ∧
    data41.length = 2 * ObjectHeaderSize + 1 := by
  decide

/-- Claim C6: on a CRC mismatch `applyRepairBlobObjects` is specified to
fail with a CRC error; the object is indeed not written, but the code
returns `errors.Annotatef(err, ...)` with `err == nil`, which is `nil`: on
a packet holding one non-tombstone pair whose header CRC (0) differs from
the payload CRC, the store is left unchanged and no error is reported. -/
theorem C6_crc_mismatch_reports_no_error :
    applyRepairBlobObjects store0 1 data22 4 = (store0, none) ∧
    crc32 [5] ≠ beNat [0, 0, 0, 0] := by
  decide

/-- Claim C7, counterexample: write oid 1, tombstone it via `MarkDelete`,
then rewrite oid 1 (accepted, since only `oid < lastOid` is rejected).  The
last persisted index record of oid 1 is now live, yet `GetDelObjects`
still returns `[1]`, because the walk collects every tombstone record it
passes rather than the per-oid last record. -/
theorem C7_counterexample :
    (store7a.MarkDelete 1 1 0).2 = none ∧
    (store7b.Write 1 1 1 [8] 4).2 = none ∧
    (store7c.GetDelObjects 1).1 = [1] ∧
    (store7c.chunks.lookup 1).map (fun c => findLast c.idxFile 1) =
      some (some ⟨1, 1, 1, 4⟩) ∧
    (1 : Nat) ≠ TombstoneFileSize := by
  decide

theorem Write_success (s : BlobStore) (fileId oid size : Nat) (data : List Nat) (crc : Nat)
    (c : Chunk) (hc : s.chunks.lookup fileId = some c) (hlock : c.compactLocked = false)
    (hoid : ¬ oid < c.lastOid) :
    s.Write fileId oid size data crc =
      (s.updateChunk fileId (writeChunk c oid size data crc), none) := by
  simp [BlobStore.Write, writeChunk, hc, hlock, hoid]

theorem writeChunk_file (c : Chunk) (oid size : Nat) (data : List Nat) (crc : Nat) :
    (writeChunk c oid size data crc).file = c.file ++ data.take size := by
  simp only [writeChunk, Chunk.treeSet, apply_ite Chunk.file, ite_self]

theorem writeChunk_idxFile (c : Chunk) (oid size : Nat) (data : List Nat) (crc : Nat) :
    (writeChunk c oid size data crc).idxFile =
      c.idxFile ++ [⟨oid, c.file.length % 2 ^ 32, size % 2 ^ 32, crc⟩] := by
  simp only [writeChunk, Chunk.treeSet, apply_ite Chunk.idxFile, ite_self]

theorem writeChunk_lastOid (c : Chunk) (oid size : Nat) (data : List Nat) (crc : Nat) :
    (writeChunk c oid size data crc).lastOid =
      if c.lastOid < oid then oid else c.lastOid := by
  simp only [writeChunk, Chunk.treeSet, apply_ite Chunk.lastOid]

/-- Claim C9: with an empty available-chunk queue, `GetChunkForWrite` is
specified to fail with `NoAvailableFile`, but the Go loop bound
`len(availChunkCh)` is 0, so the body never runs and the function returns
the zero values: chunk id 0 (not a valid chunk) and a nil error.  A
non-empty queue returns its head. -/
theorem C9_empty_queue_returns_zero :
    store0.availChunkCh = [] ∧
    store0.GetChunkForWrite = (store0, 0, none) ∧
    (store0.GetChunkForWrite.2.2 ≠ some StoreErr.ErrorNoAvaliFile) ∧
    storeAvail3.GetChunkForWrite = (⟨[(1, chunk0)], [], [], 1000⟩, 3, none) := by
  decide

/-- Claim C3 (amended): for every chunk present in the store, `Read` with an
objectId strictly greater than the chunk's `lastOid` fails with the
`ErrorFileNotFound` error — a different error kind than an index-tree miss,
which returns `ErrorObjNotFound` — and returns crc = 0. -/
theorem C3_read_above_watermark (s : BlobStore) (fileId oid size : Nat) (c : Chunk)
    (hc : s.chunks.lookup fileId = some c) (hoid : c.lastOid < oid) :
    s.Read fileId oid size = (0, some StoreErr.ErrorFileNotFound, []) ∧
    StoreErr.ErrorFileNotFound ≠ StoreErr.ErrorObjNotFound := by
  refine ⟨?_, by decide⟩
  simp [BlobStore.Read, hc, hoid]

/-- Witness for `C3_read_above_watermark` at chunk 1 of `store0`
(watermark 0) and oid 9. -/
theorem C3_witness :
    store0.Read 1 9 2 = (0, some StoreErr.ErrorFileNotFound, []) ∧
    StoreErr.ErrorFileNotFound ≠ StoreErr.ErrorObjNotFound :=
  C3_read_above_watermark store0 1 9 2 chunk0 (by decide) (by decide)

/-- Claim C10 (amended): for every chunk present in the store and not being
compacted, `WriteDeleteDentry(objectId, chunkId, crc)` succeeds, appends
exactly one tombstone index record whose offset is the data file's current
size reduced modulo `2^32` (the Go code stores `uint32(fi.Size())`), leaves
the data file unchanged (the resulting chunk keeps `c.file`), and raises
`lastOid` to `objectId` only when `objectId` is greater, so `lastOid` never
decreases. -/
theorem writeDeleteDentry_success (s : BlobStore) (objectId chunkId crc : Nat) (c : Chunk)
    (hc : s.chunks.lookup chunkId = some c) (hlock : c.compactLocked = false) :
    s.WriteDeleteDentry objectId chunkId crc =
      (s.updateChunk chunkId
        { c with
            idxFile := c.idxFile ++ [⟨objectId, c.file.length % 2 ^ 32, TombstoneFileSize, crc⟩],
            lastOid := if c.lastOid < objectId then objectId else c.lastOid }, none) := by
  by_cases hb : c.lastOid < objectId <;>
    simp only [BlobStore.WriteDeleteDentry, hc, hlock, Bool.false_eq_true, if_false, hb,
      if_true]

theorem C10_writeDeleteDentry_frame (s : BlobStore) (objectId chunkId crc : Nat) (c : Chunk)
    (hc : s.chunks.lookup chunkId = some c) (hlock : c.compactLocked = false) :
    (s.WriteDeleteDentry objectId chunkId crc).2 = none ∧
    (s.WriteDeleteDentry objectId chunkId crc).1.chunks.lookup chunkId =
      some { c with
        idxFile := c.idxFile ++ [⟨objectId, c.file.length % 2 ^ 32, TombstoneFileSize, crc⟩],
        lastOid := if c.lastOid < objectId then objectId else c.lastOid } ∧
    c.lastOid ≤ (if c.lastOid < objectId then objectId else c.lastOid) := by
  rw [writeDeleteDentry_success s objectId chunkId crc c hc hlock]
  exact ⟨rfl, lookup_updateChunk s chunkId c _ hc, by split <;> omega⟩

/-- Witness for `C10_writeDeleteDentry_frame` at chunk 1 of `store0` with
objectId 5 and crc 9. -/
theorem C10_witness :
    (store0.WriteDeleteDentry 5 1 9).2 = none ∧
    (store0.WriteDeleteDentry 5 1 9).1.chunks.lookup 1 =
      some ⟨[], [⟨5, 0, TombstoneFileSize, 9⟩], 0, 0, 5, 0, false⟩ ∧
    chunk0.lastOid ≤ 5 := by
  have h := C10_writeDeleteDentry_frame store0 5 1 9 chunk0 (by decide) (by decide)
  exact ⟨h.1, h.2.1.trans (by decide), by decide⟩

/-- Claim C10, counterexample: on a chunk whose data file holds `2^32`
bytes, the appended tombstone record's offset is `2^32 % 2^32 = 0`, not the
data file's current size `2^32` as the claim states. -/
theorem C10_counterexample :
    bigStore.chunks.lookup 1 = some bigChunk ∧
    bigChunk.file.length = 2 ^ 32 ∧
    (bigStore.WriteDeleteDentry 5 1 9).2 = none ∧
    (bigStore.WriteDeleteDentry 5 1 9).1.chunks.lookup 1 =
      some { bigChunk with idxFile := [⟨5, 0, TombstoneFileSize, 9⟩], lastOid := 5 } ∧
    (0 : Nat) ≠ 2 ^ 32 := by
  have hfile : bigChunk.file = List.replicate (2 ^ 32) 0 := rfl
  have hidx : bigChunk.idxFile = [] := rfl
  have hlast : bigChunk.lastOid = 0 := rfl
  have hlook : bigStore.chunks.lookup 1 = some bigChunk := rfl
  have h := writeDeleteDentry_success bigStore 5 1 9 bigChunk hlook rfl
  refine ⟨hlook, ?_, ?_, ?_, by norm_num⟩
  · rw [hfile, List.length_replicate]
  · rw [h]
  · rw [h, lookup_updateChunk bigStore 1 bigChunk _ hlook, hidx, hfile,
      List.length_replicate, Nat.mod_self, List.nil_append, hlast,
      if_pos (by norm_num : (0 : Nat) < 5)]
    rfl

/-- Claim C7 (amended): for every chunk present in the store,
`GetDelObjects` records `syncLastOid = lastOid` and walks the on-disk index
file in append order, stopping at the first record whose oid exceeds the
snapshot; it returns the oid of every tombstone record encountered in that
prefix — including oids whose last persisted record is not a tombstone (a
later rewrite does not remove them from the result). -/
theorem C7_getDelObjects_walk (s : BlobStore) (fileId : Nat) (c : Chunk)
    (hc : s.chunks.lookup fileId = some c) :
    s.GetDelObjects fileId =
      ((c.idxFile.takeWhile (fun r => r.oid ≤ c.lastOid)).filterMap
         (fun r => if r.size = TombstoneFileSize then some r.oid else none),
       s.updateChunk fileId { c with syncLastOid := c.lastOid }) ∧
    (s.GetDelObjects fileId).2.chunks.lookup fileId =
      some { c with syncLastOid := c.lastOid } := by
  have h1 : s.GetDelObjects fileId =
      ((c.idxFile.takeWhile (fun r => r.oid ≤ c.lastOid)).filterMap
         (fun r => if r.size = TombstoneFileSize then some r.oid else none),
       s.updateChunk fileId { c with syncLastOid := c.lastOid }) := by
    simp only [BlobStore.GetDelObjects, hc]
    rw [walkCollectDel_eq]
  refine ⟨h1, ?_⟩
  rw [h1]
  exact lookup_updateChunk s fileId c _ hc

/-- Witness for `C7_getDelObjects_walk` at chunk 1 of `store7c`. -/
theorem C7_witness :
    store7c.GetDelObjects 1 =
      ([1], store7c.updateChunk 1 { chunk7c with syncLastOid := 1 }) := by
  have h := C7_getDelObjects_walk store7c 1 chunk7c (by decide)
  exact h.1.trans (by decide)

/-- Claim C2 (amended): with chunk `fileId` present and not compacting, a
`Write` with oid equal to the chunk's `lastOid` succeeds (it is not
rejected as `ObjectSmaller`); a `Write` with an oid strictly smaller than
`lastOid` returns `ErrObjectSmaller` and leaves the store unchanged; and a
`Write` with oid `lastOid + 1` succeeds and sets `lastOid` to
`lastOid + 1`. -/
theorem C2_equal_oid_accepted (s : BlobStore) (fileId size oidSmall : Nat)
    (data : List Nat) (crc : Nat) (c : Chunk)
    (hc : s.chunks.lookup fileId = some c) (hlock : c.compactLocked = false)
    (hsmall : oidSmall < c.lastOid) :
    (s.Write fileId c.lastOid size data crc).2 = none ∧
    s.Write fileId oidSmall size data crc = (s, some StoreErr.ErrObjectSmaller) ∧
    (s.Write fileId (c.lastOid + 1) size data crc).2 = none ∧
    ((s.Write fileId (c.lastOid + 1) size data crc).1.chunks.lookup fileId).map
      Chunk.lastOid = some (c.lastOid + 1) := by
  have hs1 := Write_success s fileId c.lastOid size data crc c hc hlock (by omega)
  have hs3 := Write_success s fileId (c.lastOid + 1) size data crc c hc hlock (by omega)
  refine ⟨by rw [hs1], ?_, by rw [hs3], ?_⟩
  · simp [BlobStore.Write, hc, hlock, hsmall]
  · rw [hs3]
    rw [lookup_updateChunk s fileId c _ hc]
    simp [writeChunk_lastOid]

/-- Witness for `C2_equal_oid_accepted` at chunk 1 of `store7a`
(`lastOid = 1`), with the stale oid 0. -/
theorem C2_witness :
    (store7a.Write 1 1 2 [9, 9] 5).2 = none ∧
    store7a.Write 1 0 2 [9, 9] 5 = (store7a, some StoreErr.ErrObjectSmaller) ∧
    (store7a.Write 1 2 2 [9, 9] 5).2 = none ∧
    ((store7a.Write 1 2 2 [9, 9] 5).1.chunks.lookup 1).map Chunk.lastOid = some 2 :=
  C2_equal_oid_accepted store7a 1 2 0 [9, 9] 5 chunk7a (by decide) (by decide) (by decide)

/-- Claim C8: for every chunk present in the store and every integer
thresh, `IsReadyToCompact(chunkID, thresh)` treats a negative thresh as 40
and returns true exactly when `fileBytes ≥ (storeSize/TinyChunkCount)·40/100`
and `deleteBytes ≥ fileBytes·thresh/100` (Go integer arithmetic); in all
cases it returns `deleteBytes / fileBytes` as the delete percentage (the
Go `float64` quotient is idealised as the exact rational). -/
theorem C8_isReadyToCompact_spec (s : BlobStore) (chunkID : Nat) (thresh : Int) (c : Chunk)
    (hc : s.chunks.lookup chunkID = some c) :
    s.IsReadyToCompact chunkID thresh =
      some (decide (s.storeSize / TinyChunkCount * CompactThreshold / 100 ≤ c.fileBytes ∧
              c.fileBytes * (if thresh < 0 then (CompactThreshold : Int) else thresh).toNat / 100
                ≤ c.deleteBytes),
            (c.deleteBytes : ℚ) / (c.fileBytes : ℚ)) := by
  simp only [BlobStore.IsReadyToCompact, hc, Option.map_some']
  by_cases h1 : c.fileBytes < s.storeSize / TinyChunkCount * CompactThreshold / 100
  · rw [if_pos h1]
    have hd : decide (s.storeSize / TinyChunkCount * CompactThreshold / 100 ≤ c.fileBytes ∧
        c.fileBytes * (if thresh < 0 then (CompactThreshold : Int) else thresh).toNat / 100
          ≤ c.deleteBytes) = false :=
      decide_eq_false (fun hx => absurd h1 (Nat.not_lt.mpr hx.1))
    rw [hd]
  · rw [if_neg h1]
    by_cases h2 : c.deleteBytes <
        c.fileBytes * (if thresh < 0 then (CompactThreshold : Int) else thresh).toNat / 100
    · rw [if_pos h2]
      have hd : decide (s.storeSize / TinyChunkCount * CompactThreshold / 100 ≤ c.fileBytes ∧
          c.fileBytes * (if thresh < 0 then (CompactThreshold : Int) else thresh).toNat / 100
            ≤ c.deleteBytes) = false :=
        decide_eq_false (fun hx => absurd h2 (Nat.not_lt.mpr hx.2))
      rw [hd]
    · rw [if_neg h2]
      have hd : decide (s.storeSize / TinyChunkCount * CompactThreshold / 100 ≤ c.fileBytes ∧
          c.fileBytes * (if thresh < 0 then (CompactThreshold : Int) else thresh).toNat / 100
            ≤ c.deleteBytes) = true :=
        decide_eq_true ⟨Nat.not_lt.mp h1, Nat.not_lt.mp h2⟩
      rw [hd]

/-- Witness for `C8_isReadyToCompact_spec`: a store of size 1000 whose
chunk 1 has `fileBytes = 100 ≥ 40` and `deleteBytes = 50 ≥ 100·40/100`,
queried with the negative threshold -1 (defaulted to 40): ready, with
delete percentage 1/2. -/
theorem C8_witness :
    storeC8.IsReadyToCompact 1 (-1) = some (true, 1 / 2) := by
  have h := C8_isReadyToCompact_spec storeC8 1 (-1) chunkC8 (by decide)
  refine h.trans ?_
  norm_num [storeC8, chunkC8, TinyChunkCount, CompactThreshold]

/-- Claim C1 (amended): for a chunk present in the store and not compacting,
a `Write(chunkId, oid, size, data, crc)` that passes the oid check succeeds,
and — provided `size` is below the tombstone sentinel and the data file's
new end offset still fits in a `u32`, so that the `uint32` truncations in
the index record are lossless — a subsequent `Read(chunkId, oid, size)`
succeeds, returns exactly `data[:size]`, and returns `crc`. -/
theorem C1_write_read_roundtrip (s : BlobStore) (fileId oid size : Nat) (data : List Nat)
    (crc : Nat) (c : Chunk) (hc : s.chunks.lookup fileId = some c)
    (hlock : c.compactLocked = false) (hoid : ¬ oid < c.lastOid)
    (hdata : size ≤ data.length) (hsize : size < TombstoneFileSize)
    (hfit : c.file.length + size < 2 ^ 32) :
    (s.Write fileId oid size data crc).2 = none ∧
    (s.Write fileId oid size data crc).1.Read fileId oid size = (crc, none, data.take size) := by
  rw [Write_success s fileId oid size data crc c hc hlock hoid]
  refine ⟨rfl, ?_⟩
  have hszlt : size < 2 ^ 32 := by
    have h32 : TombstoneFileSize < 2 ^ 32 := by norm_num [TombstoneFileSize]
    omega
  have hszmod : size % 2 ^ 32 = size := Nat.mod_eq_of_lt hszlt
  have hofmod : c.file.length % 2 ^ 32 = c.file.length := Nat.mod_eq_of_lt (by omega)
  have hlook := lookup_updateChunk s fileId c (writeChunk c oid size data crc) hc
  have hlast : ¬ (writeChunk c oid size data crc).lastOid < oid := by
    rw [writeChunk_lastOid]
    split <;> omega
  have hfl : findLast (writeChunk c oid size data crc).idxFile oid =
      some ⟨oid, c.file.length, size, crc⟩ := by
    rw [writeChunk_idxFile, hszmod, hofmod, findLast_append_single]
    exact if_pos rfl
  have hget : (writeChunk c oid size data crc).treeGet oid =
      some ⟨oid, c.file.length, size, crc⟩ := by
    unfold Chunk.treeGet
    rw [hfl]
    exact if_neg (Nat.ne_of_lt hsize)
  simp only [BlobStore.Read, hlook, if_neg hlast, hget, writeChunk_file,
    List.length_append, List.length_take, Nat.min_eq_left hdata,
    List.drop_left, List.take_take, Nat.min_self, ne_eq, not_true_eq_false,
    if_false, gt_iff_lt, lt_self_iff_false, ite_false]
  simp

/-- Witness for `C1_write_read_roundtrip`: write `[10, 20, 30]` as oid 1 of
chunk 1 of `store0` with crc 7, then read it back. -/
theorem C1_witness :
    (store0.Write 1 1 3 [10, 20, 30] 7).2 = none ∧
    (store0.Write 1 1 3 [10, 20, 30] 7).1.Read 1 1 3 = (7, none, [10, 20, 30]) := by
  have h := C1_write_read_roundtrip store0 1 1 3 [10, 20, 30] 7 chunk0
    (by decide) (by decide) (by decide) (by decide) (by decide) (by decide)
  exact ⟨h.1, h.2.trans (by decide)⟩

/-- Claim C1, counterexample: with `size = 2^32` (and data of that length),
the `Write` succeeds, but the index record stores `uint32(size) = 0`, so
the subsequent `Read` with the same size fails with `ErrorParamMismatch`
instead of succeeding. -/
theorem C1_counterexample :
    hugeData.length = 2 ^ 32 ∧
    (store0.Write 1 1 (2 ^ 32) hugeData 7).2 = none ∧
    ((store0.Write 1 1 (2 ^ 32) hugeData 7).1.Read 1 1 (2 ^ 32)).2.1 =
      some StoreErr.ErrorParamMismatch := by
  have hlen : hugeData.length = 2 ^ 32 := by
    rw [show hugeData = List.replicate (2 ^ 32) 0 from rfl, List.length_replicate]
  have hlook : store0.chunks.lookup 1 = some chunk0 := rfl
  have h := Write_success store0 1 1 (2 ^ 32) hugeData 7 chunk0 hlook rfl (by decide)
  refine ⟨hlen, ?_, ?_⟩
  · rw [h]
  · rw [h]
    have hlook2 := lookup_updateChunk store0 1 chunk0 (writeChunk chunk0 1 (2 ^ 32) hugeData 7) hlook
    have hlast : ¬ (writeChunk chunk0 1 (2 ^ 32) hugeData 7).lastOid < 1 := by
      rw [writeChunk_lastOid]
      split <;> omega
    have hfl : findLast (writeChunk chunk0 1 (2 ^ 32) hugeData 7).idxFile 1 =
        some ⟨1, 0, 0, 7⟩ := by
      rw [writeChunk_idxFile, findLast_append_single]
      rw [show chunk0.file.length % 2 ^ 32 = 0 from rfl, Nat.mod_self]
      exact if_pos rfl
    have hget : (writeChunk chunk0 1 (2 ^ 32) hugeData 7).treeGet 1 = some ⟨1, 0, 0, 7⟩ := by
      unfold Chunk.treeGet
      rw [hfl]
      exact if_neg (by norm_num [TombstoneFileSize])
    simp only [BlobStore.Read, hlook2, if_neg hlast, hget]
    rw [if_pos]
    norm_num
